import Mathlib

/-!
Shallow embedding of the diamond pricing engine of this repository
(src/services/pricingService.ts and src/services/openFacetAPI.ts),
together with theorems checking the specification claims against it.

Numbers are modelled by `ℚ` (and `ℝ` where the claim speaks about
`exp`/`log`); JavaScript `Math.round` is `⌊x + 1/2⌋`; fallible code
returns `Except String`; the key-value maps of the JSON payloads are
association lists.
-/

namespace DiamondApp

/-- JavaScript `Math.round`: round half toward positive infinity. -/
def jsRound (x : ℚ) : ℤ :=
  Int.floor (x + 1/2)

/-- Embeds the `spread` computation inside `calculatePriceRange`
(src/services/pricingService.ts lines 217-219):
`baseSpread = 0.05`, `confidenceFactor = (100 - confidence) / 100`,
`spread = baseSpread + confidenceFactor * 0.10`. -/
def rangeSpread (confidence : ℚ) : ℚ :=
  let baseSpread : ℚ := 5/100
  let confidenceFactor : ℚ := (100 - confidence) / 100
  baseSpread + confidenceFactor * (10/100)

/-- Embeds `calculatePriceRange` (src/services/pricingService.ts lines 210-225):
`min = Math.round(totalPrice * (1 - spread))`,
`max = Math.round(totalPrice * (1 + spread))`. -/
def calculatePriceRange (totalPrice confidence : ℚ) : ℤ × ℤ :=
  let spread := rangeSpread confidence
  (jsRound (totalPrice * (1 - spread)), jsRound (totalPrice * (1 + spread)))

/-- Written from the claim text for C1 (the spec, section 4.4): total spread
is 5 percent plus an additional spread scaled linearly by
`(100 - confidence)/100` up to 10 percent, with
`min = round(total * (1 - spread))` and `max = round(total * (1 + spread))`.
Kept as a separate definition so that the code-side `calculatePriceRange`
can be compared against the words of the spec. -/
def claimPriceRange (totalPrice confidence : ℚ) : ℤ × ℤ :=
  let spread : ℚ := 5/100 + ((100 - confidence) / 100) * (10/100)
  (jsRound (totalPrice * (1 - spread)), jsRound (totalPrice * (1 + spread)))

/-- Embeds the penalty cascade of `calculateConfidence`
(src/services/pricingService.ts lines 230-255) before the final floor:
start at 100; subtract 10 when the carat band is not exact; subtract 15
when market depth is below 50, else 5 when below 200; subtract 10 when the
data age exceeds 12 hours, else 5 when it exceeds 6 hours. -/
def calculateConfidenceRaw (hasExactCaratBand : Bool) (marketDepth : ℕ)
    (dataAgeHours : ℤ) : ℤ :=
  let c1 : ℤ := if !hasExactCaratBand then 100 - 10 else 100
  let c2 : ℤ := if marketDepth < 50 then c1 - 15
    else if marketDepth < 200 then c1 - 5 else c1
  if dataAgeHours > 12 then c2 - 10
  else if dataAgeHours > 6 then c2 - 5 else c2

/-- Embeds `calculateConfidence` (src/services/pricingService.ts lines
230-257): the penalty cascade followed by `Math.max(confidence, 50)`. -/
def calculateConfidence (hasExactCaratBand : Bool) (marketDepth : ℕ)
    (dataAgeHours : ℤ) : ℤ :=
  max (calculateConfidenceRaw hasExactCaratBand marketDepth dataAgeHours) 50

theorem calculateConfidenceRaw_bounds (e : Bool) (d : ℕ) (a : ℤ) :
    65 ≤ calculateConfidenceRaw e d a ∧ calculateConfidenceRaw e d a ≤ 100 := by
  unfold calculateConfidenceRaw
  rcases e <;> simp only [Bool.not_true, Bool.not_false, if_true, if_false] <;>
    split_ifs <;> omega

theorem rangeSpread_le_of_confidence (c : ℚ) (h : 65 ≤ c) :
    rangeSpread c ≤ 17/200 := by
  unfold rangeSpread
  linarith

/-- C10: for every exact-band flag, non-negative market depth and data age,
the confidence score lies in [65, 100], the clamp to 50 never takes effect
(the clamped value equals the raw cascade value), and the resulting range
spread never exceeds 8.5 percent. -/
theorem confidence_in_65_100_and_spread_le
    (e : Bool) (d : ℕ) (a : ℤ) :
    65 ≤ calculateConfidence e d a ∧ calculateConfidence e d a ≤ 100 ∧
    calculateConfidence e d a = calculateConfidenceRaw e d a ∧
    rangeSpread ((calculateConfidence e d a : ℤ) : ℚ) ≤ 17/200 := by
  obtain ⟨h1, h2⟩ := calculateConfidenceRaw_bounds e d a
  have hmax : calculateConfidence e d a = calculateConfidenceRaw e d a := by
    unfold calculateConfidence
    omega
  refine ⟨by omega, by omega, hmax, ?_⟩
  apply rangeSpread_le_of_confidence
  have : (65 : ℤ) ≤ calculateConfidence e d a := by omega
  exact_mod_cast this

/-- C1 counterexample: at total price 1000 and confidence 50 the code
produces min = 900 (a 10 percent spread), while the claim announces a
15 percent spread at confidence 50, which would give min = 850. -/
theorem priceRange_at_confidence_50_not_15_percent :
    (calculatePriceRange 1000 50).1 = 900 ∧
    jsRound ((1000 : ℚ) * (1 - 15/100)) = 850 ∧
    rangeSpread 50 ≠ 15/100 := by
  refine ⟨?_, ?_, ?_⟩ <;>
    norm_num [calculatePriceRange, rangeSpread, jsRound, Int.floor_eq_iff]

/-- C1 (amended): for total price t ≥ 0 and confidence 50 ≤ c ≤ 100, the
price range follows the spec formula spread = 5 percent plus
`(100 - c)/100` times 10 percent with rounded min and max, and the spread
equals 5 percent at c = 100 and 10 percent (not 15) at c = 50. -/
theorem priceRange_follows_spread_formula
    (t c : ℚ) (_ht : 0 ≤ t) (_hc50 : 50 ≤ c) (_hc100 : c ≤ 100) :
    calculatePriceRange t c = claimPriceRange t c ∧
    rangeSpread 100 = 5/100 ∧ rangeSpread 50 = 10/100 := by
  refine ⟨rfl, by norm_num [rangeSpread], by norm_num [rangeSpread]⟩

theorem priceRange_follows_spread_formula_witness :
    (0 : ℚ) ≤ 1000 ∧ (50 : ℚ) ≤ 80 ∧ (80 : ℚ) ≤ 100 ∧
    (calculatePriceRange 1000 80 = claimPriceRange 1000 80 ∧
      rangeSpread 100 = 5/100 ∧ rangeSpread 50 = 10/100) :=
  ⟨by norm_num, by norm_num, by norm_num,
    priceRange_follows_spread_formula 1000 80 (by norm_num) (by norm_num)
      (by norm_num)⟩

/-- Embeds the `MarketDepthResponse` shape (src/services/openFacetAPI.ts
lines 46-51): three nested string-keyed maps to listing counts, modelled
as association lists. -/
structure MarketDepthResponse where
  clarity : List (String × List (String × ℕ))
  color : List (String × List (String × ℕ))
  colclar : List (String × List (String × ℕ))

/-- Nested optional-chaining lookup `m?.[k1]?.[k2]`: `none` when either
key is missing, so a missing key can never throw. -/
def lookup2 (m : List (String × List (String × ℕ))) (k1 k2 : String) :
    Option ℕ :=
  (m.lookup k1).bind fun inner => inner.lookup k2

/-- Embeds `getMarketDepth` (src/services/pricingService.ts lines 262-295).
The JavaScript code guards each lookup with `if (value)`, and truthiness
treats a missing key (undefined) and a stored count of 0 alike: both fall
through to the next lookup. -/
def getMarketDepth (depthData : MarketDepthResponse) (caratWeight : ℚ)
    (colorGrade clarityGrade : String) : ℕ :=
  let caratKey := toString caratWeight
  let colorClarityDepth :=
    (lookup2 depthData.colclar colorGrade clarityGrade).getD 0
  if colorClarityDepth ≠ 0 then colorClarityDepth
  else
    let clarityDepth :=
      (lookup2 depthData.clarity caratKey clarityGrade).getD 0
    if clarityDepth ≠ 0 then clarityDepth
    else
      let colorDepth := (lookup2 depthData.color caratKey colorGrade).getD 0
      if colorDepth ≠ 0 then colorDepth
      else 0

/-- C3: market-depth resolution tries the three nested lookups in order
(color-and-clarity, then carat-and-clarity, then carat-and-color, the two
carat lookups sharing the same stringified carat key), returns the first
one that resolves to a depth (a present nonzero count; a zero or missing
entry means no data), yields 0 when none resolves, never fails, and a
depth of 0 receives the 15 point low-depth confidence penalty. -/
theorem marketDepth_fallback_order :
    (∀ (d : MarketDepthResponse) (w : ℚ) (col cl : String) (v : ℕ),
      lookup2 d.colclar col cl = some v → v ≠ 0 →
      getMarketDepth d w col cl = v) ∧
    (∀ (d : MarketDepthResponse) (w : ℚ) (col cl : String) (v : ℕ),
      (lookup2 d.colclar col cl).getD 0 = 0 →
      lookup2 d.clarity (toString w) cl = some v → v ≠ 0 →
      getMarketDepth d w col cl = v) ∧
    (∀ (d : MarketDepthResponse) (w : ℚ) (col cl : String) (v : ℕ),
      (lookup2 d.colclar col cl).getD 0 = 0 →
      (lookup2 d.clarity (toString w) cl).getD 0 = 0 →
      lookup2 d.color (toString w) col = some v → v ≠ 0 →
      getMarketDepth d w col cl = v) ∧
    (∀ (d : MarketDepthResponse) (w : ℚ) (col cl : String),
      (lookup2 d.colclar col cl).getD 0 = 0 →
      (lookup2 d.clarity (toString w) cl).getD 0 = 0 →
      (lookup2 d.color (toString w) col).getD 0 = 0 →
      getMarketDepth d w col cl = 0) ∧
    (∀ (e : Bool) (a : ℤ),
      calculateConfidence e 0 a = calculateConfidence e 200 a - 15) := by
  refine ⟨?_, ?_, ?_, ?_, ?_⟩
  · intro d w col cl v h hv
    simp [getMarketDepth, h, hv]
  · intro d w col cl v h0 h hv
    simp [getMarketDepth, h0, h, hv]
  · intro d w col cl v h0 h1 h hv
    simp [getMarketDepth, h0, h1, h, hv]
  · intro d w col cl h0 h1 h2
    simp [getMarketDepth, h0, h1, h2]
  · intro e a
    simp only [calculateConfidence, calculateConfidenceRaw]
    rcases e <;> simp only [Bool.not_true, Bool.not_false, if_true, if_false] <;>
      split_ifs <;> omega

theorem marketDepth_fallback_order_witness :
    (lookup2 ([("E", [("VS2", 0)])]) "E" "VS2").getD 0 = 0 ∧
    lookup2 ([("1", [("VS2", 7)])]) (toString (1 : ℚ)) "VS2" = some 7 ∧
    (7 : ℕ) ≠ 0 ∧
    getMarketDepth ⟨[("1", [("VS2", 7)])], [], [("E", [("VS2", 0)])]⟩
      1 "E" "VS2" = 7 :=
  ⟨by decide, by decide, by decide,
    marketDepth_fallback_order.2.1 ⟨[("1", [("VS2", 7)])], [], [("E", [("VS2", 0)])]⟩
      1 "E" "VS2" 7 (by decide) (by decide) (by decide)⟩

/-- Embeds the category-and-range map inside `normalizeColorGrade`
(src/services/pricingService.ts lines 62-74). -/
def colorMap : List (String × String) :=
  [("Colorless", "E"), ("Near Colorless", "H"), ("Faint", "L"), ("Light", "M"),
   ("D-F", "E"), ("G-J", "H"), ("K-M", "L"), ("N-R", "M"), ("S-Z", "M")]

/-- Models JavaScript `toUpperCase` character by character; on the ASCII
grades handled here this agrees with the runtime behaviour. -/
def toUpperCase (s : String) : String :=
  String.mk (s.data.map Char.toUpper)

/-- Embeds `normalizeColorGrade` (src/services/pricingService.ts lines
61-98): map categories and ranges to a letter, otherwise uppercase the
input, then clamp to the first and last of the supplied grade labels. -/
def normalizeColorGrade (colorGrade : String)
    (availableGrades : Option (List String)) : String :=
  let normalizedGrade := (colorMap.lookup colorGrade).getD (toUpperCase colorGrade)
  match availableGrades with
  | none => normalizedGrade
  | some [] => normalizedGrade
  | some (g0 :: rest) =>
    let minGrade := g0
    let maxGrade := (g0 :: rest).getLast (List.cons_ne_nil g0 rest)
    let clamped := if normalizedGrade < minGrade then minGrade else normalizedGrade
    if clamped > maxGrade then maxGrade else clamped

theorem exists_list_min {α : Type} [LinearOrder α] (g0 : α) (rest : List α) :
    ∃ lo, lo ∈ g0 :: rest ∧ ∀ g ∈ g0 :: rest, lo ≤ g := by
  induction rest generalizing g0 with
  | nil => exact ⟨g0, by simp⟩
  | cons b t ih =>
    obtain ⟨lo, hmem, hle⟩ := ih b
    by_cases hg : g0 ≤ lo
    · refine ⟨g0, by simp, ?_⟩
      intro g hgmem
      rcases List.mem_cons.mp hgmem with h | h
      · exact le_of_eq h.symm
      · exact le_trans hg (hle g h)
    · refine ⟨lo, List.mem_cons_of_mem g0 hmem, ?_⟩
      intro g hgmem
      rcases List.mem_cons.mp hgmem with h | h
      · exact h ▸ le_of_not_le hg
      · exact hle g h

theorem exists_list_max {α : Type} [LinearOrder α] (g0 : α) (rest : List α) :
    ∃ hi, hi ∈ g0 :: rest ∧ ∀ g ∈ g0 :: rest, g ≤ hi := by
  induction rest generalizing g0 with
  | nil => exact ⟨g0, by simp⟩
  | cons b t ih =>
    obtain ⟨hi, hmem, hge⟩ := ih b
    by_cases hg : hi ≤ g0
    · refine ⟨g0, by simp, ?_⟩
      intro g hgmem
      rcases List.mem_cons.mp hgmem with h | h
      · exact le_of_eq h
      · exact le_trans (hge g h) hg
    · refine ⟨hi, List.mem_cons_of_mem g0 hmem, ?_⟩
      intro g hgmem
      rcases List.mem_cons.mp hgmem with h | h
      · exact h ▸ le_of_not_le hg
      · exact hge g h

/-- C7: whenever a nonempty list of grid row labels is supplied, the
normalized color grade lies between the smallest and the largest label of
the grid (normalization is total, hence never fails), and the concrete
input Z with maximum label M clamps to M. -/
theorem normalizeColor_bounded :
    (∀ (colorGrade g0 : String) (rest : List String),
      ∃ lo hi, lo ∈ g0 :: rest ∧ hi ∈ g0 :: rest ∧
        (∀ g ∈ g0 :: rest, lo ≤ g) ∧ (∀ g ∈ g0 :: rest, g ≤ hi) ∧
        lo ≤ normalizeColorGrade colorGrade (some (g0 :: rest)) ∧
        normalizeColorGrade colorGrade (some (g0 :: rest)) ≤ hi) ∧
    normalizeColorGrade "Z"
      (some ["D", "E", "F", "G", "H", "I", "J", "K", "L", "M"]) = "M" := by
  constructor
  · intro colorGrade g0 rest
    obtain ⟨lo, hlomem, hlo⟩ := exists_list_min g0 rest
    obtain ⟨hi, hhimem, hhi⟩ := exists_list_max g0 rest
    refine ⟨lo, hi, hlomem, hhimem, hlo, hhi, ?_⟩
    have hg0 : g0 ∈ g0 :: rest := by simp
    have hlast : (g0 :: rest).getLast (List.cons_ne_nil g0 rest) ∈ g0 :: rest :=
      List.getLast_mem _
    simp only [normalizeColorGrade]
    set ng := (colorMap.lookup colorGrade).getD (toUpperCase colorGrade) with hng
    set M := (g0 :: rest).getLast (List.cons_ne_nil g0 rest) with hM
    by_cases h1 : ng < g0
    · simp only [h1, if_true]
      by_cases h2 : g0 > M
      · simp only [h2, if_true]
        exact ⟨hlo M hlast, hhi M hlast⟩
      · simp only [h2, if_false]
        exact ⟨hlo g0 hg0, hhi g0 hg0⟩
    · simp only [h1, if_false]
      by_cases h2 : ng > M
      · simp only [h2, if_true]
        exact ⟨hlo M hlast, hhi M hlast⟩
      · simp only [h2, if_false]
        exact ⟨le_trans (hlo g0 hg0) (le_of_not_lt h1),
          le_trans (le_of_not_lt h2) (hhi M hlast)⟩
  · have h1 : ¬ (("Z" : String) < "D") := by
      rw [String.lt_iff_toList_lt]
      decide
    have h2 : (("M" : String) < "Z") := by
      rw [String.lt_iff_toList_lt]
      decide
    have hM : ("D" :: ["E", "F", "G", "H", "I", "J", "K", "L", "M"]).getLast
        (List.cons_ne_nil "D" ["E", "F", "G", "H", "I", "J", "K", "L", "M"]) =
        "M" := by decide
    simp only [normalizeColorGrade]
    rw [show (colorMap.lookup "Z").getD (toUpperCase "Z") = "Z" from by decide]
    rw [hM, if_neg h1, if_pos h2]

theorem singleton_beq_literal_false (c : Char) (t : String) (h : t.length ≠ 1) :
    (String.mk [c] == t) = false := by
  refine beq_eq_false_iff_ne.mpr fun he => h ?_
  rw [← he]
  rfl

/-- C8: normalizing a color grade that is already a single uppercase ASCII
letter (code 65 to 90) lying between the first and the last supplied grid
label returns it unchanged. -/
theorem normalizeColor_idempotent (c : Char) (g0 : String) (rest : List String)
    (hA : 65 ≤ c.toNat) (hZ : c.toNat ≤ 90)
    (hlo : g0 ≤ String.mk [c])
    (hhi : String.mk [c] ≤ (g0 :: rest).getLast (List.cons_ne_nil g0 rest)) :
    normalizeColorGrade (String.mk [c]) (some (g0 :: rest)) = String.mk [c] := by
  have hb1 := singleton_beq_literal_false c "Colorless" (by decide)
  have hb2 := singleton_beq_literal_false c "Near Colorless" (by decide)
  have hb3 := singleton_beq_literal_false c "Faint" (by decide)
  have hb4 := singleton_beq_literal_false c "Light" (by decide)
  have hb5 := singleton_beq_literal_false c "D-F" (by decide)
  have hb6 := singleton_beq_literal_false c "G-J" (by decide)
  have hb7 := singleton_beq_literal_false c "K-M" (by decide)
  have hb8 := singleton_beq_literal_false c "N-R" (by decide)
  have hb9 := singleton_beq_literal_false c "S-Z" (by decide)
  have hlk : colorMap.lookup (String.mk [c]) = none := by
    simp only [colorMap, List.lookup, hb1, hb2, hb3, hb4, hb5, hb6, hb7, hb8, hb9]
  have hupc : Char.toUpper c = c := by
    unfold Char.toUpper
    rw [if_neg]
    omega
  have hup : toUpperCase (String.mk [c]) = String.mk [c] := by
    simp [toUpperCase, hupc]
  simp only [normalizeColorGrade, hlk, hup, Option.getD_none]
  rw [if_neg (not_lt.mpr hlo), if_neg (not_lt.mpr hhi)]

theorem normalizeColor_idempotent_witness :
    65 ≤ ('E').toNat ∧ ('E').toNat ≤ 90 ∧
    ("D" : String) ≤ String.mk ['E'] ∧
    String.mk ['E'] ≤
      (("D" :: ["E", "M"]).getLast (List.cons_ne_nil "D" ["E", "M"])) ∧
    normalizeColorGrade (String.mk ['E']) (some ["D", "E", "M"]) =
      String.mk ['E'] :=
  ⟨by decide, by decide,
    by rw [String.le_iff_toList_le]; decide,
    by rw [String.le_iff_toList_le]; decide,
    normalizeColor_idempotent 'E' "D" ["E", "M"] (by decide) (by decide)
      (by rw [String.le_iff_toList_le]; decide)
      (by rw [String.le_iff_toList_le]; decide)⟩

/-- Embeds the bracketing loop of `findCaratBands`
(src/services/pricingService.ts lines 116-120): scan adjacent pairs of the
sorted band list and return the first pair with
`bands[i] < caratWeight < bands[i+1]`. -/
def findBracket (caratWeight : ℚ) : List ℚ → Option (ℚ × ℚ)
  | a :: b :: rest =>
    if a < caratWeight ∧ caratWeight < b then some (a, b)
    else findBracket caratWeight (b :: rest)
  | _ => none

/-- Embeds `findCaratBands` after the sort (src/services/pricingService.ts
lines 110-134): exact match gives a degenerate bracket, then the
bracketing loop, then extrapolation from the two lowest or the two highest
bands, and the final unreachable throw. The JavaScript accesses `bands[1]`
and `bands[bands.length - 2]`, which are undefined on a one-element list;
the embedding reports that as an error (the caller would subsequently fail
to resolve a log price for an undefined band). -/
def findCaratBandsSorted (caratWeight : ℚ) (bands : List ℚ) :
    Except String (ℚ × ℚ) :=
  if caratWeight ∈ bands then Except.ok (caratWeight, caratWeight)
  else
    match findBracket caratWeight bands with
    | some p => Except.ok p
    | none =>
      match bands with
      | [] => Except.error "Unable to find carat bands"
      | b0 :: rest =>
        if caratWeight < b0 then
          match rest with
          | b1 :: _ => Except.ok (b0, b1)
          | [] => Except.error "Undefined upper carat band"
        else if caratWeight > (b0 :: rest).getLast (List.cons_ne_nil b0 rest) then
          match (b0 :: rest).reverse with
          | blast :: bprev :: _ => Except.ok (bprev, blast)
          | _ => Except.error "Undefined lower carat band"
        else Except.error "Unable to find carat bands"

/-- Embeds `findCaratBands` (src/services/pricingService.ts lines 104-135):
the band list is sorted ascending first. -/
def findCaratBands (caratWeight : ℚ) (availableBands : List ℚ) :
    Except String (ℚ × ℚ) :=
  findCaratBandsSorted caratWeight
    (List.insertionSort (fun a b => a ≤ b) availableBands)

/-- Result record of `interpolateLogPrice`. -/
structure InterpolationResult (α : Type) where
  interpolatedLogPrice : α
  lambda : α
  deriving DecidableEq

/-- Embeds `interpolateLogPrice` (src/services/pricingService.ts lines
186-205), generic over the number field so the same definition serves the
rational and the real statements. -/
def interpolateLogPrice {α : Type} [Field α] [DecidableEq α]
    (logPrice1 logPrice2 caratWeight caratBand1 caratBand2 : α) :
    InterpolationResult α :=
  if caratBand1 = caratBand2 then ⟨logPrice1, 0⟩
  else
    let lambda := (caratWeight - caratBand1) / (caratBand2 - caratBand1)
    ⟨(1 - lambda) * logPrice1 + lambda * logPrice2, lambda⟩

theorem findBracket_none_of_not_lt (w : ℚ) :
    ∀ l : List ℚ, (∀ x ∈ l, ¬ x < w) → findBracket w l = none
  | [], _ => rfl
  | [_], _ => rfl
  | a :: b :: rest, h => by
    have ha : ¬ a < w := h a (by simp)
    rw [findBracket, if_neg fun hc => ha hc.1]
    exact findBracket_none_of_not_lt w (b :: rest)
      fun x hx => h x (List.mem_cons_of_mem a hx)

theorem findBracket_none_of_not_gt (w : ℚ) :
    ∀ l : List ℚ, (∀ x ∈ l, ¬ w < x) → findBracket w l = none
  | [], _ => rfl
  | [_], _ => rfl
  | a :: b :: rest, h => by
    have hb : ¬ w < b := h b (by simp)
    rw [findBracket, if_neg fun hc => hb hc.2]
    exact findBracket_none_of_not_gt w (b :: rest)
      fun x hx => h x (List.mem_cons_of_mem a hx)

/-- C4: with at least two available bands, a carat weight below every band
selects the two lowest bands and a carat weight above every band selects
the two highest bands; in both out-of-range cases band selection returns a
successful answer rather than an error. -/
theorem out_of_range_extrapolates (w : ℚ) (availableBands : List ℚ)
    (hlen : 2 ≤ availableBands.length) :
    ((∀ b ∈ availableBands, w < b) →
      ∃ b1 b2, findCaratBands w availableBands = Except.ok (b1, b2) ∧
        b1 ∈ availableBands ∧ b2 ∈ availableBands ∧ b1 ≤ b2 ∧
        (∀ b ∈ availableBands, b1 ≤ b) ∧
        (∀ b ∈ availableBands, b = b1 ∨ b2 ≤ b)) ∧
    ((∀ b ∈ availableBands, b < w) →
      ∃ b1 b2, findCaratBands w availableBands = Except.ok (b1, b2) ∧
        b1 ∈ availableBands ∧ b2 ∈ availableBands ∧ b1 ≤ b2 ∧
        (∀ b ∈ availableBands, b ≤ b2) ∧
        (∀ b ∈ availableBands, b = b2 ∨ b ≤ b1)) := by
  have hsorted := List.sorted_insertionSort (fun a b : ℚ => a ≤ b) availableBands
  have hperm := List.perm_insertionSort (fun a b : ℚ => a ≤ b) availableBands
  have hlens := List.length_insertionSort (fun a b : ℚ => a ≤ b) availableBands
  simp only [findCaratBands]
  generalize hseq : List.insertionSort (fun a b : ℚ => a ≤ b) availableBands = s
    at hsorted hperm hlens ⊢
  have hmemiff : ∀ x : ℚ, x ∈ s ↔ x ∈ availableBands := fun x => hperm.mem_iff
  obtain _ | ⟨s0, _ | ⟨s1, t⟩⟩ := s
  · simp at hlens
    omega
  · simp at hlens
    omega
  constructor
  · intro hlow
    have hs0mem : s0 ∈ availableBands := (hmemiff s0).mp (by simp)
    have hs1mem : s1 ∈ availableBands := (hmemiff s1).mp (by simp)
    have hmem : w ∉ (s0 :: s1 :: t) := fun hc =>
      lt_irrefl w (hlow w ((hmemiff w).mp hc))
    have hbr : findBracket w (s0 :: s1 :: t) = none :=
      findBracket_none_of_not_lt w _
        fun x hx => lt_asymm (hlow x ((hmemiff x).mp hx))
    have h01 := (List.sorted_cons.mp hsorted).1
    have hsorted1 := (List.sorted_cons.mp hsorted).2
    have h1t := (List.sorted_cons.mp hsorted1).1
    refine ⟨s0, s1, ?_, hs0mem, hs1mem, h01 s1 (by simp), ?_, ?_⟩
    · simp only [findCaratBandsSorted, hbr]
      rw [if_neg hmem, if_pos (hlow s0 hs0mem)]
    · intro b hb
      rcases List.mem_cons.mp ((hmemiff b).mpr hb) with h | h
      · exact le_of_eq h.symm
      · exact h01 b h
    · intro b hb
      rcases List.mem_cons.mp ((hmemiff b).mpr hb) with h | h
      · exact Or.inl h
      · rcases List.mem_cons.mp h with h2 | h2
        · exact Or.inr (le_of_eq h2.symm)
        · exact Or.inr (h1t b h2)
  · intro hhigh
    have hmem : w ∉ (s0 :: s1 :: t) := fun hc =>
      lt_irrefl w (hhigh w ((hmemiff w).mp hc))
    have hbr : findBracket w (s0 :: s1 :: t) = none :=
      findBracket_none_of_not_gt w _
        fun x hx => lt_asymm (hhigh x ((hmemiff x).mp hx))
    have hrev : (s0 :: s1 :: t).reverse.Pairwise (fun a b : ℚ => b ≤ a) :=
      List.pairwise_reverse.mpr hsorted
    have hrevlen : (s0 :: s1 :: t).reverse.length = t.length + 2 := by simp
    obtain hrs : ∃ blast bprev u,
        (s0 :: s1 :: t).reverse = blast :: bprev :: u := by
      rcases hr : (s0 :: s1 :: t).reverse with _ | ⟨x, _ | ⟨y, u⟩⟩
      · rw [hr] at hrevlen
        simp at hrevlen
      · rw [hr] at hrevlen
        simp at hrevlen
      · exact ⟨x, y, u, rfl⟩
    obtain ⟨blast, bprev, u, hr⟩ := hrs
    have hmemrev : ∀ x : ℚ, x ∈ blast :: bprev :: u ↔ x ∈ availableBands := by
      intro x
      rw [← hr, List.mem_reverse]
      exact hmemiff x
    have hblmem : blast ∈ availableBands := (hmemrev blast).mp (by simp)
    have hbpmem : bprev ∈ availableBands := (hmemrev bprev).mp (by simp)
    rw [hr] at hrev
    have hb0 := (List.pairwise_cons.mp hrev).1
    have hrev1 := (List.pairwise_cons.mp hrev).2
    have hb1 := (List.pairwise_cons.mp hrev1).1
    have hglmem : (s0 :: s1 :: t).getLast (List.cons_ne_nil s0 (s1 :: t)) ∈
        availableBands :=
      (hmemiff _).mp (List.getLast_mem _)
    refine ⟨bprev, blast, ?_, hbpmem, hblmem, hb0 bprev (by simp), ?_, ?_⟩
    · simp only [findCaratBandsSorted, hbr]
      rw [if_neg hmem, if_neg (lt_asymm (hhigh s0 ((hmemiff s0).mp (by simp)))),
        if_pos (hhigh _ hglmem), hr]
    · intro b hb
      rcases List.mem_cons.mp ((hmemrev b).mpr hb) with h | h
      · exact le_of_eq h
      · exact hb0 b h
    · intro b hb
      rcases List.mem_cons.mp ((hmemrev b).mpr hb) with h | h
      · exact Or.inl h
      · rcases List.mem_cons.mp h with h2 | h2
        · exact Or.inr (le_of_eq h2)
        · exact Or.inr (hb1 b h2)

theorem out_of_range_extrapolates_witness :
    2 ≤ ([1, 2, 3] : List ℚ).length ∧
    (∀ b ∈ ([1, 2, 3] : List ℚ), (1 : ℚ)/2 < b) ∧
    (∃ b1 b2, findCaratBands (1/2) [1, 2, 3] = Except.ok (b1, b2) ∧
      b1 ∈ ([1, 2, 3] : List ℚ) ∧ b2 ∈ ([1, 2, 3] : List ℚ) ∧ b1 ≤ b2 ∧
      (∀ b ∈ ([1, 2, 3] : List ℚ), b1 ≤ b) ∧
      (∀ b ∈ ([1, 2, 3] : List ℚ), b = b1 ∨ b2 ≤ b)) :=
  ⟨by simp, by intro b hb; fin_cases hb <;> norm_num,
    (out_of_range_extrapolates (1/2) [1, 2, 3] (by simp)).1
      (by intro b hb; fin_cases hb <;> norm_num)⟩

/-- C5: a carat weight equal to one of the available bands produces the
degenerate bracket (w, w), and interpolating at a degenerate bracket
returns lambda 0 with the interpolated log price exactly equal to the
stored grid log price `logPrice1` supplied at that band. -/
theorem exact_band_no_interpolation (w : ℚ) (availableBands : List ℚ)
    (hw : w ∈ availableBands) (logPrice1 logPrice2 : ℚ) :
    findCaratBands w availableBands = Except.ok (w, w) ∧
    interpolateLogPrice logPrice1 logPrice2 w w w = ⟨logPrice1, 0⟩ := by
  constructor
  · have hmem : w ∈ List.insertionSort (fun a b : ℚ => a ≤ b) availableBands :=
      (List.mem_insertionSort _).mpr hw
    simp only [findCaratBands, findCaratBandsSorted]
    rw [if_pos hmem]
  · simp [interpolateLogPrice]

theorem exact_band_no_interpolation_witness :
    (3/2 : ℚ) ∈ ([1, 3/2, 2] : List ℚ) ∧
    (findCaratBands (3/2) [1, 3/2, 2] = Except.ok (3/2, 3/2) ∧
      interpolateLogPrice (9 : ℚ) (47/5) (3/2) (3/2) (3/2) = ⟨9, 0⟩) :=
  ⟨by norm_num,
    exact_band_no_interpolation (3/2) [1, 3/2, 2] (by norm_num) 9 (47/5)⟩

/-- C6: for adjacent bands b1 < b2 with positive per-carat prices
p1 < p2 and a weight strictly between the bands, the log-linear
interpolation factor is (w - b1)/(b2 - b1) and the interpolated price
exp((1 - lambda) log p1 + lambda log p2) lies strictly between p1 and
p2. -/
theorem interpolated_price_strictly_between
    (p1 p2 w b1 b2 : ℝ) (hp1 : 0 < p1) (hp12 : p1 < p2)
    (hw1 : b1 < w) (hw2 : w < b2) :
    (interpolateLogPrice (Real.log p1) (Real.log p2) w b1 b2).lambda =
      (w - b1) / (b2 - b1) ∧
    p1 < Real.exp
      (interpolateLogPrice (Real.log p1) (Real.log p2) w b1 b2).interpolatedLogPrice ∧
    Real.exp
      (interpolateLogPrice (Real.log p1) (Real.log p2) w b1 b2).interpolatedLogPrice
      < p2 := by
  have hb : b1 < b2 := lt_trans hw1 hw2
  have hne : b1 ≠ b2 := ne_of_lt hb
  have hbpos : 0 < b2 - b1 := sub_pos.mpr hb
  have hl : 0 < (w - b1) / (b2 - b1) := div_pos (sub_pos.mpr hw1) hbpos
  have hr : (w - b1) / (b2 - b1) < 1 := by
    rw [div_lt_one hbpos]
    linarith
  have hlog : Real.log p1 < Real.log p2 := Real.log_lt_log hp1 hp12
  simp only [interpolateLogPrice, if_neg hne]
  set lam := (w - b1) / (b2 - b1) with hlam
  refine ⟨trivial, ?_, ?_⟩
  · calc p1 = Real.exp (Real.log p1) := (Real.exp_log hp1).symm
      _ < Real.exp ((1 - lam) * Real.log p1 + lam * Real.log p2) :=
        Real.exp_lt_exp.mpr (by nlinarith [mul_pos hl (sub_pos.mpr hlog)])
  · have hp2 : 0 < p2 := lt_trans hp1 hp12
    calc Real.exp ((1 - lam) * Real.log p1 + lam * Real.log p2)
        < Real.exp (Real.log p2) :=
          Real.exp_lt_exp.mpr (by
            nlinarith [mul_pos (show (0:ℝ) < 1 - lam by linarith)
              (sub_pos.mpr hlog)])
      _ = p2 := Real.exp_log hp2

theorem interpolated_price_strictly_between_witness :
    (0 : ℝ) < 1 ∧ (1 : ℝ) < 2 ∧ (1 : ℝ) < 3/2 ∧ (3/2 : ℝ) < 2 ∧
    ((interpolateLogPrice (Real.log 1) (Real.log 2) (3/2) 1 2).lambda =
        ((3:ℝ)/2 - 1) / (2 - 1) ∧
      (1 : ℝ) < Real.exp
        (interpolateLogPrice (Real.log 1) (Real.log 2) (3/2) 1 2).interpolatedLogPrice ∧
      Real.exp
        (interpolateLogPrice (Real.log 1) (Real.log 2) (3/2) 1 2).interpolatedLogPrice
        < 2) :=
  ⟨by norm_num, by norm_num, by norm_num, by norm_num,
    interpolated_price_strictly_between 1 2 (3/2) 1 2 (by norm_num)
      (by norm_num) (by norm_num) (by norm_num)⟩

/-- Embeds `CachedData<T>` (src/services/openFacetAPI.ts lines 53-57);
timestamps are in milliseconds. -/
structure CachedData (T : Type) where
  data : T
  timestamp : ℕ
  expiresAt : ℕ

/-- Embeds `CACHE_EXPIRY_HOURS` (src/services/openFacetAPI.ts line 13). -/
def CACHE_EXPIRY_HOURS : ℕ := 24

/-- Embeds `isCacheValid` (src/services/openFacetAPI.ts lines 62-65). -/
def isCacheValid {T : Type} (cached : Option (CachedData T)) (now : ℕ) : Bool :=
  match cached with
  | none => false
  | some c => decide (now < c.expiresAt)

/-- Embeds `createCacheEntry` (src/services/openFacetAPI.ts lines 70-77). -/
def createCacheEntry {T : Type} (data : T) (now : ℕ) : CachedData T :=
  { data := data, timestamp := now,
    expiresAt := now + CACHE_EXPIRY_HOURS * 60 * 60 * 1000 }

/-- Outcome of one dataset fetch operation: the returned or failed value,
the cache entry afterwards, and whether a network fetch was attempted. -/
structure FetchOutcome (T : Type) where
  result : Except String T
  cache : Option (CachedData T)
  fetched : Bool

/-- Embeds the body shared by `fetchDCXIndex`, `fetchPriceMatrix` and
`fetchMarketDepth` (src/services/openFacetAPI.ts lines 82-133, 138-190 and
195-242, identical up to dataset type, URL and messages): serve a valid
cache entry unless forceRefresh is set, otherwise attempt the fetch; on
success store a fresh entry replacing any prior one; on failure serve any
existing entry even when expired, or fail with the no-data message. The
network outcome is supplied as an `Except` value. -/
def fetchDataset {T : Type} (noDataMsg : String)
    (fetchResult : Except String T) (cache0 : Option (CachedData T))
    (now : ℕ) (forceRefresh : Bool) : FetchOutcome T :=
  if !forceRefresh && isCacheValid cache0 now then
    match cache0 with
    | some c => { result := Except.ok c.data, cache := cache0, fetched := false }
    | none => { result := Except.error noDataMsg, cache := none, fetched := false }
  else
    match fetchResult with
    | Except.ok d =>
      { result := Except.ok d, cache := some (createCacheEntry d now),
        fetched := true }
    | Except.error _ =>
      match cache0 with
      | some c => { result := Except.ok c.data, cache := cache0, fetched := true }
      | none => { result := Except.error noDataMsg, cache := cache0, fetched := true }

/-- Embeds the `PriceMatrixResponse` shape (src/services/openFacetAPI.ts
lines 38-44). -/
structure PriceMatrixResponse where
  l : List (String × List ℚ)
  c : List String
  r : List String
  s : ℕ × ℕ
  ts : ℕ

/-- Embeds the `DCXIndexResponse` shape (src/services/openFacetAPI.ts
lines 22-36); the informational spec list is not consumed by the pricing
math and is omitted. -/
structure DCXIndexResponse where
  dcx : ℚ
  trend : ℚ
  ts : ℕ

/-- Embeds `fetchPriceMatrix` (src/services/openFacetAPI.ts lines 138-190). -/
def fetchPriceMatrix (fetchResult : Except String PriceMatrixResponse)
    (cache0 : Option (CachedData PriceMatrixResponse)) (now : ℕ)
    (forceRefresh : Bool) : FetchOutcome PriceMatrixResponse :=
  fetchDataset "Failed to fetch price matrix and no cached data available"
    fetchResult cache0 now forceRefresh

/-- Embeds `fetchDCXIndex` (src/services/openFacetAPI.ts lines 82-133). -/
def fetchDCXIndex (fetchResult : Except String DCXIndexResponse)
    (cache0 : Option (CachedData DCXIndexResponse)) (now : ℕ)
    (forceRefresh : Bool) : FetchOutcome DCXIndexResponse :=
  fetchDataset "Failed to fetch DCX index and no cached data available"
    fetchResult cache0 now forceRefresh

/-- Embeds `fetchMarketDepth` (src/services/openFacetAPI.ts lines 195-242). -/
def fetchMarketDepth (fetchResult : Except String MarketDepthResponse)
    (cache0 : Option (CachedData MarketDepthResponse)) (now : ℕ)
    (forceRefresh : Bool) : FetchOutcome MarketDepthResponse :=
  fetchDataset "Failed to fetch market depth and no cached data available"
    fetchResult cache0 now forceRefresh

/-- Embeds the data-acquisition stage of `calculateDiamondPrice`
(src/services/pricingService.ts lines 315-319): all three datasets are
awaited together and any failed operation rejects the whole quote. -/
def quoteData (mF : Except String PriceMatrixResponse)
    (iF : Except String DCXIndexResponse)
    (dF : Except String MarketDepthResponse)
    (mC : Option (CachedData PriceMatrixResponse))
    (iC : Option (CachedData DCXIndexResponse))
    (dC : Option (CachedData MarketDepthResponse)) (now : ℕ) :
    Except String (PriceMatrixResponse × DCXIndexResponse × MarketDepthResponse) := do
  let m ← (fetchPriceMatrix mF mC now false).result
  let i ← (fetchDCXIndex iF iC now false).result
  let d ← (fetchMarketDepth dF dC now false).result
  pure (m, i, d)

theorem fetchDataset_error_some {T : Type} (msg e : String) (c : CachedData T)
    (now : ℕ) (fr : Bool) :
    (fetchDataset msg (Except.error e) (some c) now fr).result =
      Except.ok c.data := by
  unfold fetchDataset
  split <;> rfl

theorem fetchDataset_error_none {T : Type} (msg e : String) (now : ℕ)
    (fr : Bool) :
    (fetchDataset msg (Except.error e) (none : Option (CachedData T)) now fr).result =
      Except.error msg := by
  cases fr <;> rfl

/-- C2: each of the three dataset operations serves any existing cache
entry when the fetch fails, regardless of expiry, and fails with its
no-data message exactly when no cache entry exists; consequently the quote
data stage succeeds on a stale cached matrix after a matrix fetch failure
and rejects with the no-data error when fetch and cache are both
unavailable. -/
theorem staleServe_and_noData :
    (∀ (T : Type) (msg e : String) (c : CachedData T) (now : ℕ) (fr : Bool),
      (fetchDataset msg (Except.error e) (some c) now fr).result =
        Except.ok c.data) ∧
    (∀ (e : String) (now : ℕ) (fr : Bool),
      (fetchPriceMatrix (Except.error e) none now fr).result =
        Except.error "Failed to fetch price matrix and no cached data available" ∧
      (fetchDCXIndex (Except.error e) none now fr).result =
        Except.error "Failed to fetch DCX index and no cached data available" ∧
      (fetchMarketDepth (Except.error e) none now fr).result =
        Except.error "Failed to fetch market depth and no cached data available") ∧
    (∀ (e : String) (c : CachedData PriceMatrixResponse)
      (iF : Except String DCXIndexResponse)
      (dF : Except String MarketDepthResponse)
      (iC : Option (CachedData DCXIndexResponse))
      (dC : Option (CachedData MarketDepthResponse)) (now : ℕ)
      (idx : DCXIndexResponse) (dep : MarketDepthResponse),
      (fetchDCXIndex iF iC now false).result = Except.ok idx →
      (fetchMarketDepth dF dC now false).result = Except.ok dep →
      quoteData (Except.error e) iF dF (some c) iC dC now =
        Except.ok (c.data, idx, dep)) ∧
    (∀ (e : String) (iF : Except String DCXIndexResponse)
      (dF : Except String MarketDepthResponse)
      (iC : Option (CachedData DCXIndexResponse))
      (dC : Option (CachedData MarketDepthResponse)) (now : ℕ),
      quoteData (Except.error e) iF dF none iC dC now =
        Except.error "Failed to fetch price matrix and no cached data available") := by
  refine ⟨fun T msg e c now fr => fetchDataset_error_some msg e c now fr,
    fun e now fr => ⟨fetchDataset_error_none _ e now fr,
      fetchDataset_error_none _ e now fr, fetchDataset_error_none _ e now fr⟩,
    ?_, ?_⟩
  · intro e c iF dF iC dC now idx dep hI hD
    simp only [quoteData, fetchPriceMatrix]
    rw [fetchDataset_error_some, hI, hD]
    rfl
  · intro e iF dF iC dC now
    simp only [quoteData, fetchPriceMatrix]
    rw [fetchDataset_error_none]
    rfl

theorem staleServe_and_noData_witness :
    (fetchDCXIndex (Except.ok ⟨1, 0, 0⟩) none 5 false).result =
      Except.ok ⟨1, 0, 0⟩ ∧
    (fetchMarketDepth (Except.ok ⟨[], [], []⟩) none 5 false).result =
      Except.ok ⟨[], [], []⟩ ∧
    quoteData (Except.error "network down") (Except.ok ⟨1, 0, 0⟩)
      (Except.ok ⟨[], [], []⟩) (some ⟨⟨[], [], [], (0, 0), 0⟩, 0, 0⟩)
      none none 5 =
      Except.ok (⟨[], [], [], (0, 0), 0⟩, ⟨1, 0, 0⟩, ⟨[], [], []⟩) :=
  ⟨rfl, rfl,
    staleServe_and_noData.2.2.1 "network down" ⟨⟨[], [], [], (0, 0), 0⟩, 0, 0⟩
      (Except.ok ⟨1, 0, 0⟩) (Except.ok ⟨[], [], []⟩) none none 5
      ⟨1, 0, 0⟩ ⟨[], [], []⟩ rfl rfl⟩

/-- C9: with forceRefresh false and a valid cache entry the cached payload
is returned with no network fetch and an unchanged cache; a successful
fetch stores a fresh entry whose capture timestamp is now and whose expiry
is exactly 24 hours later, replacing any prior entry; an entry is valid
iff the current time is strictly before its expiry, and an absent entry is
never valid. -/
theorem cache_hit_and_refresh :
    (∀ (T : Type) (msg : String) (f : Except String T) (c : CachedData T)
      (now : ℕ),
      isCacheValid (some c) now = true →
      fetchDataset msg f (some c) now false =
        { result := Except.ok c.data, cache := some c, fetched := false }) ∧
    (∀ (T : Type) (msg : String) (d : T) (cache0 : Option (CachedData T))
      (now : ℕ) (fr : Bool),
      (fr = true ∨ isCacheValid cache0 now = false) →
      fetchDataset msg (Except.ok d) cache0 now fr =
        { result := Except.ok d,
          cache := some ⟨d, now, now + 24 * 60 * 60 * 1000⟩,
          fetched := true }) ∧
    (∀ (T : Type) (c : CachedData T) (now : ℕ),
      isCacheValid (some c) now = true ↔ now < c.expiresAt) ∧
    (∀ (T : Type) (now : ℕ),
      isCacheValid (none : Option (CachedData T)) now = false) := by
  refine ⟨?_, ?_, ?_, ?_⟩
  · intro T msg f c now h
    simp [fetchDataset, h]
  · intro T msg d cache0 now fr h
    rcases h with h | h
    · subst h
      rfl
    · cases fr <;> simp [fetchDataset, h, createCacheEntry, CACHE_EXPIRY_HOURS]
  · intro T c now
    simp [isCacheValid]
  · intro T now
    rfl

theorem cache_hit_and_refresh_witness :
    isCacheValid (some (⟨7, 0, 10⟩ : CachedData ℕ)) 5 = true ∧
    fetchDataset "no data" (Except.error "network down")
      (some (⟨7, 0, 10⟩ : CachedData ℕ)) 5 false =
      { result := Except.ok 7, cache := some ⟨7, 0, 10⟩, fetched := false } :=
  ⟨rfl, cache_hit_and_refresh.1 ℕ "no data" (Except.error "network down")
    ⟨7, 0, 10⟩ 5 rfl⟩

end DiamondApp
